import Mathlib

/-!
Verification of the survey/voting bot core (`bot.py`): data model,
membership gate, vote protocol, and survey lifecycle, shallowly embedded
as pure Lean functions over an explicit database state.  Strings are
modelled as `List Char` so that every operation computes inside the
kernel; the Python string primitives the code uses (`strip`, `startswith`,
`replace`, `in`, `lstrip`, `isdigit`, `int()`) are given explicit
executable models below.
-/

namespace SurveyBot

/-- Strings of the embedded program, as plain character lists. -/
abbrev Str := List Char

/-- Python `s.startswith(p)` on character lists. -/
def startsWithL : Str → Str → Bool
  | _, [] => true
  | [], _ :: _ => false
  | c :: cs, p :: ps => c == p && startsWithL cs ps

/-- One pass of Python `s.replace(pat, repl)` with an explicit fuel that
bounds the number of characters examined. -/
def replaceFuel (pat repl : Str) : Nat → Str → Str
  | 0, s => s
  | _ + 1, [] => []
  | fuel + 1, c :: cs =>
    if startsWithL (c :: cs) pat then repl ++ replaceFuel pat repl fuel ((c :: cs).drop pat.length)
    else c :: replaceFuel pat repl fuel cs

/-- Python `s.replace(pat, repl)`: replace every non-overlapping occurrence
of `pat`, scanning left to right (identity on an empty pattern, which the
program never uses). -/
def replaceAllL (pat repl s : Str) : Str :=
  if pat.isEmpty then s else replaceFuel pat repl s.length s

/-- The whitespace characters Python `str.strip()` removes. -/
def isPySpace (c : Char) : Bool :=
  c == ' ' || c == '\t' || c == '\n' || c == '\r' || c == '\x0b' || c == '\x0c'

/-- Python `s.strip()`: drop leading and trailing whitespace. -/
def stripL (s : Str) : Str :=
  ((s.dropWhile isPySpace).reverse.dropWhile isPySpace).reverse

/-- Python `s.lstrip("-")`: drop every leading `-`. -/
def lstripDashL (s : Str) : Str :=
  s.dropWhile (fun c => c == '-')

/-- Python `s.isdigit()` (ASCII digits): nonempty and all digits. -/
def isDigitL (s : Str) : Bool :=
  !s.isEmpty && s.all Char.isDigit

/-- Numeric value of a digit string. -/
def digitsVal (s : Str) : Nat :=
  s.foldl (fun n c => n * 10 + (c.toNat - 48)) 0

/-- Python `int(s)` on a string: strip whitespace, allow one sign, then
require a nonempty digit run; `none` models the `ValueError` it raises
otherwise. -/
def pyIntL? (raw : Str) : Option Int :=
  match stripL raw with
  | '-' :: rest => if isDigitL rest then some (-(digitsVal rest : Int)) else none
  | '+' :: rest => if isDigitL rest then some ((digitsVal rest : Int)) else none
  | t => if isDigitL t then some ((digitsVal t : Int)) else none

/-- Python `a or b` specialised to an optional string with a string
fallback: `None` and the empty string are falsy. -/
def pyStrOr (a : Option Str) (b : Str) : Str :=
  match a with
  | some s => if s.isEmpty then b else s
  | none => b

/-- Lexicographic order on character lists, used to model SQL
`ORDER BY channel`. -/
def lexLe : Str → Str → Bool
  | [], _ => true
  | _ :: _, [] => false
  | a :: as, b :: bs => if a == b then lexLe as bs else decide (a < b)

/-- Insertion step of a stable insertion sort by a boolean order. -/
def insertLe (le : α → α → Bool) (a : α) : List α → List α
  | [] => [a]
  | b :: bs => if le a b then a :: b :: bs else b :: insertLe le a bs

/-- Stable insertion sort by a boolean order, used to model SQL
`ORDER BY`. -/
def sortLe (le : α → α → Bool) (l : List α) : List α :=
  l.foldr (insertLe le) []

/-! ### Data model -/

/-- A row of the `surveys` table: `id SERIAL`, `short_title`, `title`,
`description`, `image` (all nullable TEXT), `active BOOLEAN DEFAULT TRUE`. -/
structure Survey where
  id : Int
  short_title : Option Str
  title : Option Str
  description : Option Str
  image : Option Str
  active : Bool
deriving DecidableEq

/-- A row of the `candidates` table: `id SERIAL`, `survey_id` (FK to
surveys, cascade delete), `name TEXT NOT NULL`, `votes INT DEFAULT 0`. -/
structure Candidate where
  id : Int
  survey_id : Int
  name : Str
  votes : Nat
deriving DecidableEq

/-- A row of the `required_channels` table: `survey_id` (FK to surveys,
cascade delete), `channel TEXT`. -/
structure ReqChannel where
  survey_id : Int
  channel : Str
deriving DecidableEq

/-- The database state: the five tables, plus the next values of the two
`SERIAL` sequences.  `votedUsers` holds the `(survey_id, user_id)` pairs of
the `voted_users` table (primary key, hence at-most-once per pair);
`users` holds the ids of the registered-user table. -/
structure DBState where
  nextSurveyId : Int
  nextCandId : Int
  surveys : List Survey
  candidates : List Candidate
  reqChannels : List ReqChannel
  votedUsers : List (Int × Int)
  users : List Int
deriving DecidableEq

/-- The empty database. -/
def initState : DBState :=
  { nextSurveyId := 1, nextCandId := 1, surveys := [], candidates := [],
    reqChannels := [], votedUsers := [], users := [] }

/-! ### Channel references and the membership lookup boundary -/

/-- The argument passed to the external `get_chat_member` call: either a
numeric internal chat id (`int(ch)`) or a `@handle`-style name string. -/
inductive ChatRef where
  | byId (chatId : Int)
  | byName (s : Str)
deriving DecidableEq

/-- Statuses the external membership lookup can report.  `creator` is the
chat owner's status. -/
inductive ChatMemberStatus where
  | member
  | administrator
  | creator
  | left
  | kicked
  | restricted
deriving DecidableEq

/-- The external membership lookup: given a chat reference and a user id,
either a status, or `none` when the lookup raises an error. -/
def Memb : Type := ChatRef → Int → Option ChatMemberStatus

/-- `member.status in ("member", "administrator", "creator")`. -/
def statusAllowed : ChatMemberStatus → Bool
  | .member => true
  | .administrator => true
  | .creator => true
  | _ => false

/-- `normalize_channel` from `bot.py`: strip; a `https://t.me/<path>` URL
whose remaining path has no further `/` becomes `@<path>`; anything else
is returned stripped but otherwise unchanged. -/
def normalize_channel (value : Str) : Str :=
  let v := stripL value
  if startsWithL v "https://t.me/".toList then
    let path := stripL (replaceAllL "https://t.me/".toList [] v)
    if path.any (fun c => c == '/') then v
    else '@' :: path
  else if startsWithL v "@".toList then v
  else v

/-- The chat reference `is_member` passes to the external lookup for a raw
channel string, or `none` when no lookup is attempted: a `t.me` URL with an
internal path segment, or a numeric-looking string on which `int()`
raises.  Numeric strings (leading `-100`, or all digits after stripping
`-` with total length above 3) are looked up by id; `t.me` URLs become
`@<path>`; any other reference without a leading `@` is given one. -/
def resolveChatRef (channel_raw : Str) : Option ChatRef :=
  let ch := stripL channel_raw
  if startsWithL ch "-100".toList || (isDigitL (lstripDashL ch) && decide (ch.length > 3)) then
    (pyIntL? ch).map ChatRef.byId
  else if startsWithL ch "https://t.me/".toList then
    let path := stripL (replaceAllL "https://t.me/".toList [] ch)
    if path.any (fun c => c == '/') then none
    else some (ChatRef.byName ('@' :: path))
  else if startsWithL ch "@".toList then some (ChatRef.byName ch)
  else some (ChatRef.byName ('@' :: ch))

/-- `is_member` from `bot.py`: resolve the channel reference, call the
external lookup, and accept exactly the member/administrator/creator
statuses; every lookup error, and every unresolvable reference, yields
`false`. -/
def is_member (memb : Memb) (user_id : Int) (channel_raw : Str) : Bool :=
  match resolveChatRef channel_raw with
  | none => false
  | some ref =>
    match memb ref user_id with
    | none => false
    | some st => statusAllowed st

/-! ### Store reads (`get_surveys`, `get_survey`, `user_has_voted`) -/

/-- `get_surveys`: `SELECT * FROM surveys WHERE active=true ORDER BY id
DESC`. -/
def get_surveys (st : DBState) : List Survey :=
  sortLe (fun a b => decide (b.id ≤ a.id)) (st.surveys.filter (fun s => s.active))

/-- The candidate rows of one survey as `get_survey` returns them:
`SELECT * FROM candidates WHERE survey_id=$1 ORDER BY id`. -/
def candidatesOf (st : DBState) (sid : Int) : List Candidate :=
  sortLe (fun a b => decide (a.id ≤ b.id)) (st.candidates.filter (fun c => c.survey_id == sid))

/-- The required-channel strings of one survey as `get_survey` returns
them: `SELECT channel FROM required_channels WHERE survey_id=$1 ORDER BY
channel`. -/
def requiredChannelsOf (st : DBState) (sid : Int) : List Str :=
  sortLe lexLe ((st.reqChannels.filter (fun r => r.survey_id == sid)).map (fun r => r.channel))

/-- `get_survey` from `bot.py`: the survey row, its candidates ordered by
id, and its required channels ordered by channel. -/
def get_survey (st : DBState) (sid : Int) :
    Option Survey × List Candidate × List Str :=
  (st.surveys.find? (fun s => s.id == sid), candidatesOf st sid, requiredChannelsOf st sid)

/-- `user_has_voted` from `bot.py`: a `voted_users` row for
`(survey_id, user_id)` exists. -/
def user_has_voted (st : DBState) (sid uid : Int) : Bool :=
  st.votedUsers.any (fun p => p.1 == sid && p.2 == uid)

/-! ### The accept path (`add_vote`) and the vote protocol -/

/-- `UPDATE candidates SET votes=votes+1 WHERE id=$1`, row by row. -/
def bumpC (cid : Int) (c : Candidate) : Candidate :=
  if c.id == cid then { c with votes := c.votes + 1 } else c

/-- `add_vote` from `bot.py`: inside one transaction, increment the
candidate's vote counter and insert the `(survey_id, user_id)` voted
record. -/
def add_vote (st : DBState) (sid cid uid : Int) : DBState :=
  { st with
    candidates := st.candidates.map (bumpC cid),
    votedUsers := st.votedUsers ++ [(sid, uid)] }

/-- The channels of the survey the user has not joined, in the order the
vote handler collects them. -/
def missingChannels (st : DBState) (memb : Memb) (uid sid : Int) : List Str :=
  (requiredChannelsOf st sid).filter (fun ch => !(is_member memb uid ch))

/-- Outcomes of one vote attempt, as the vote handler distinguishes them. -/
inductive VoteOutcome where
  | candidateNotFound
  | alreadyVoted
  | membershipRequired (missing : List Str)
  | accepted
deriving DecidableEq

/-- `vote_callback` from `bot.py`, state transition and outcome: resolve
the candidate (not found is terminal); reject a user who already voted in
the candidate's survey; collect the unjoined required channels and reject
with the complete list when nonempty; otherwise run `add_vote`. -/
def voteStep (st : DBState) (memb : Memb) (uid cid : Int) : DBState × VoteOutcome :=
  match st.candidates.find? (fun c => c.id == cid) with
  | none => (st, .candidateNotFound)
  | some cand =>
    if user_has_voted st cand.survey_id uid then (st, .alreadyVoted)
    else
      let notJoined := missingChannels st memb uid cand.survey_id
      if notJoined.isEmpty then (add_vote st cand.survey_id cid uid, .accepted)
      else (st, .membershipRequired notJoined)

/-- Outcomes of one membership recheck. -/
inductive RecheckOutcome where
  | stillMissing (channels : List Str)
  | cleared
deriving DecidableEq

/-- `recheck_callback` from `bot.py`, state transition and outcome: re-run
the membership collection for the survey's required channels; the handler
performs no store write. -/
def recheckStep (st : DBState) (memb : Memb) (uid sid : Int) : DBState × RecheckOutcome :=
  let notJoined := missingChannels st memb uid sid
  if notJoined.isEmpty then (st, .cleared)
  else (st, .stillMissing notJoined)

/-- `n` successive recheck taps: the list of outcomes observed and the
final state. -/
def iterateRecheck (memb : Memb) (uid sid : Int) : Nat → DBState → List RecheckOutcome × DBState
  | 0, st => ([], st)
  | n + 1, st =>
    let r := recheckStep st memb uid sid
    let rest := iterateRecheck memb uid sid n r.1
    (r.2 :: rest.1, rest.2)

/-! ### Survey lifecycle: stop and delete -/

/-- The voter ids holding a `voted_users` row for one survey:
`SELECT user_id FROM voted_users WHERE survey_id=$1`. -/
def votersOf (st : DBState) (sid : Int) : List Int :=
  (st.votedUsers.filter (fun p => p.1 == sid)).map (fun p => p.2)

/-- Whether a send to one recipient succeeds; `false` models the raised
send error for that recipient. -/
def SendOk : Type := Int → Bool

/-- The notification loop of `admin_stop_survey_callback`: try each
recipient independently, counting successes and failures. -/
def deliverLoop (send : SendOk) : List Int → Nat × Nat
  | [] => (0, 0)
  | u :: us =>
    let rest := deliverLoop send us
    if send u then (rest.1 + 1, rest.2) else (rest.1, rest.2 + 1)

/-- What the stop handler reports: the title used in the result message,
the snapshotted `(name, votes)` tallies, and the delivery counts. -/
structure StopResult where
  title : Str
  results : List (Str × Nat)
  sent : Nat
  failed : Nat
deriving DecidableEq

/-- `admin_stop_survey_callback` from `bot.py`: unconditionally set
`active=false` for the survey id, fetch title fields, snapshot the
candidate tallies ordered by id, and send the result message to exactly
the voters of this survey, counting successes and failures per recipient. -/
def stopStep (st : DBState) (send : SendOk) (sid : Int) : DBState × StopResult :=
  let surveys2 := st.surveys.map (fun s => if s.id == sid then { s with active := false } else s)
  let survey? := surveys2.find? (fun s => s.id == sid)
  let cands := candidatesOf st sid
  let voters := votersOf st sid
  let title := pyStrOr (survey?.bind (fun s => s.short_title))
    (pyStrOr (survey?.bind (fun s => s.description)) "So'rovnoma".toList)
  let counts := deliverLoop send voters
  ({ st with surveys := surveys2 },
   { title := title, results := cands.map (fun c => (c.name, c.votes)),
     sent := counts.1, failed := counts.2 })

/-- Outcomes of the delete handler. -/
inductive DeleteOutcome where
  | notFound
  | deleted (title : Str)
deriving DecidableEq

/-- `admin_delete_survey_callback` from `bot.py`: a missing survey is
reported as not found with no write; otherwise the survey row is deleted
and the cascade removes its candidates, required channels and voted
records. -/
def deleteStep (st : DBState) (sid : Int) : DBState × DeleteOutcome :=
  match st.surveys.find? (fun s => s.id == sid) with
  | none => (st, .notFound)
  | some s =>
    ({ st with
       surveys := st.surveys.filter (fun t => !(t.id == sid)),
       candidates := st.candidates.filter (fun c => !(c.survey_id == sid)),
       reqChannels := st.reqChannels.filter (fun r => !(r.survey_id == sid)),
       votedUsers := st.votedUsers.filter (fun p => !(p.1 == sid)) },
     .deleted (pyStrOr s.short_title "So'rovnoma".toList))

/-! ### Survey creation and registration -/

/-- `INSERT INTO surveys (short_title, description) VALUES ($1,$2)
RETURNING id` (from `process_description`): a fresh id from the SERIAL
sequence, `active` defaulting to true. -/
def createSurveyStep (st : DBState) (short desc : Str) : DBState × Int :=
  let sid := st.nextSurveyId
  ({ st with
     surveys := st.surveys ++
       [{ id := sid, short_title := some short, title := none,
          description := some desc, image := none, active := true }],
     nextSurveyId := sid + 1 }, sid)

/-- `INSERT INTO candidates (survey_id, name)` (from `process_candidate`):
a fresh candidate id, zero votes; the foreign key rejects a survey id with
no surveys row, leaving the state unchanged. -/
def addCandidateStep (st : DBState) (sid : Int) (name : Str) : DBState :=
  if st.surveys.any (fun s => s.id == sid) then
    { st with
      candidates := st.candidates ++
        [{ id := st.nextCandId, survey_id := sid, name := name, votes := 0 }],
      nextCandId := st.nextCandId + 1 }
  else st

/-- `INSERT INTO required_channels (survey_id, channel)` (from
`process_channel`), with the same foreign-key guard. -/
def addChannelStep (st : DBState) (sid : Int) (ch : Str) : DBState :=
  if st.surveys.any (fun s => s.id == sid) then
    { st with reqChannels := st.reqChannels ++ [{ survey_id := sid, channel := ch }] }
  else st

/-- The `/start` upsert into the `users` table, reduced to the id set. -/
def registerStep (st : DBState) (uid : Int) : DBState :=
  if st.users.contains uid then st else { st with users := st.users ++ [uid] }

/-! ### Operation sequences -/

/-- The store-touching operations of the bot, for stating invariants over
arbitrary operation sequences. -/
inductive Op where
  | createSurvey (short desc : Str)
  | addCandidate (sid : Int) (name : Str)
  | addChannel (sid : Int) (ch : Str)
  | register (uid : Int)
  | vote (memb : Memb) (uid cid : Int)
  | recheck (memb : Memb) (uid sid : Int)
  | stop (send : SendOk) (sid : Int)
  | delete (sid : Int)

/-- The state transition of one operation. -/
def applyOp (st : DBState) : Op → DBState
  | .createSurvey short desc => (createSurveyStep st short desc).1
  | .addCandidate sid name => addCandidateStep st sid name
  | .addChannel sid ch => addChannelStep st sid ch
  | .register uid => registerStep st uid
  | .vote memb uid cid => (voteStep st memb uid cid).1
  | .recheck memb uid sid => (recheckStep st memb uid sid).1
  | .stop send sid => (stopStep st send sid).1
  | .delete sid => (deleteStep st sid).1

/-- Run a sequence of operations. -/
def runOps (st : DBState) (ops : List Op) : DBState :=
  ops.foldl applyOp st

/-! ### Callback-token parsing and the handlers' entry points -/

/-- `int(query.data.replace(verb, ""))`: strip every occurrence of the
verb marker, then parse; `none` models the `ValueError` raised on a
non-numeric remainder. -/
def parseId (verb data : Str) : Option Int :=
  pyIntL? (replaceAllL verb [] data)

/-- `vote_callback` including its token parsing; `Except.error` models the
uncaught `ValueError` on a malformed id. -/
def voteHandler (st : DBState) (memb : Memb) (uid : Int) (data : Str) :
    Except Unit (DBState × VoteOutcome) :=
  match parseId "vote_".toList data with
  | none => .error ()
  | some cid => .ok (voteStep st memb uid cid)

/-- `open_survey_callback` including its token parsing: fetch and render,
no store write. -/
def openHandler (st : DBState) (data : Str) :
    Except Unit (Option Survey × List Candidate × List Str) :=
  match parseId "open_".toList data with
  | none => .error ()
  | some sid => .ok (get_survey st sid)

/-- `recheck_callback` including its token parsing. -/
def recheckHandler (st : DBState) (memb : Memb) (uid : Int) (data : Str) :
    Except Unit (DBState × RecheckOutcome) :=
  match parseId "recheck_".toList data with
  | none => .error ()
  | some sid => .ok (recheckStep st memb uid sid)

/-- `admin_stop_survey_callback` including its token parsing. -/
def stopHandler (st : DBState) (send : SendOk) (data : Str) :
    Except Unit (DBState × StopResult) :=
  match parseId "stop_".toList data with
  | none => .error ()
  | some sid => .ok (stopStep st send sid)

/-- `admin_delete_survey_callback` including its token parsing. -/
def deleteHandler (st : DBState) (data : Str) :
    Except Unit (DBState × DeleteOutcome) :=
  match parseId "delete_".toList data with
  | none => .error ()
  | some sid => .ok (deleteStep st sid)

/-! ### Spec-side measures and invariants -/

/-- Sum of the vote counters of the candidates of one survey, over a row
list. -/
def sumVotesL (sid : Int) : List Candidate → Nat
  | [] => 0
  | c :: cs => (if c.survey_id = sid then c.votes else 0) + sumVotesL sid cs

/-- Sum of the vote counters of one survey's candidates. -/
def sumVotes (st : DBState) (sid : Int) : Nat :=
  sumVotesL sid st.candidates

/-- Number of `voted_users` rows of one survey. -/
def countVoted (st : DBState) (sid : Int) : Nat :=
  st.votedUsers.countP (fun p => p.1 == sid)

/-- Tally correctness: for every survey id, the candidates' vote counters
sum to the number of voted records. -/
def tallyInv (st : DBState) : Prop :=
  ∀ sid : Int, sumVotes st sid = countVoted st sid

/-- Structural well-formedness the SERIAL primary key guarantees:
candidate ids are distinct and below the next sequence value. -/
def WF (st : DBState) : Prop :=
  st.candidates.Pairwise (fun a b => a.id ≠ b.id) ∧
  ∀ c ∈ st.candidates, c.id < st.nextCandId

/-! ### Helper lemmas -/

theorem mem_insertLe (le : α → α → Bool) (a x : α) (l : List α) :
    x ∈ insertLe le a l ↔ x = a ∨ x ∈ l := by
  induction l with
  | nil => simp [insertLe]
  | cons b bs ih =>
    simp only [insertLe]
    split
    · simp
    · simp only [List.mem_cons, ih]
      tauto

theorem mem_sortLe (le : α → α → Bool) (x : α) (l : List α) :
    x ∈ sortLe le l ↔ x ∈ l := by
  induction l with
  | nil => simp [sortLe]
  | cons b bs ih =>
    simp only [sortLe, List.foldr_cons] at *
    rw [mem_insertLe, ih, List.mem_cons]

theorem recheckStep_fst (st : DBState) (memb : Memb) (uid sid : Int) :
    (recheckStep st memb uid sid).1 = st := by
  simp only [recheckStep]
  split <;> rfl

theorem voteStep_found (st : DBState) (memb : Memb) (uid cid : Int) (cand : Candidate)
    (hfind : st.candidates.find? (fun c => c.id == cid) = some cand) :
    voteStep st memb uid cid =
      (if user_has_voted st cand.survey_id uid then (st, .alreadyVoted)
       else if (missingChannels st memb uid cand.survey_id).isEmpty then
         (add_vote st cand.survey_id cid uid, .accepted)
       else (st, .membershipRequired (missingChannels st memb uid cand.survey_id))) := by
  simp only [voteStep, hfind]

theorem voteStep_fst_cases (st : DBState) (memb : Memb) (uid cid : Int) :
    (voteStep st memb uid cid).1 = st ∨
    ∃ cand, st.candidates.find? (fun c => c.id == cid) = some cand ∧
      user_has_voted st cand.survey_id uid = false ∧
      (voteStep st memb uid cid).1 = add_vote st cand.survey_id cid uid := by
  cases hfind : st.candidates.find? (fun c => c.id == cid) with
  | none => left; simp [voteStep, hfind]
  | some cand =>
    rw [voteStep_found st memb uid cid cand hfind]
    by_cases hv : user_has_voted st cand.survey_id uid
    · left; simp [hv]
    · by_cases hm : (missingChannels st memb uid cand.survey_id).isEmpty
      · right
        exact ⟨cand, rfl, by simp [hv], by simp [hv, hm]⟩
      · left; simp [hv, hm]

theorem sumVotesL_append (sid : Int) (l1 l2 : List Candidate) :
    sumVotesL sid (l1 ++ l2) = sumVotesL sid l1 + sumVotesL sid l2 := by
  induction l1 with
  | nil => simp [sumVotesL]
  | cons c cs ih => simp [sumVotesL, ih]; omega

theorem bumpC_id (cid : Int) (c : Candidate) : (bumpC cid c).id = c.id := by
  simp only [bumpC]; split <;> rfl

theorem bumpC_survey_id (cid : Int) (c : Candidate) :
    (bumpC cid c).survey_id = c.survey_id := by
  simp only [bumpC]; split <;> rfl

theorem map_bumpC_eq_self (cid : Int) (l : List Candidate)
    (h : ∀ c ∈ l, c.id ≠ cid) : l.map (bumpC cid) = l := by
  induction l with
  | nil => rfl
  | cons c cs ih =>
    have hc : c.id ≠ cid := h c (by simp)
    simp only [List.map_cons, bumpC, beq_iff_eq, if_neg hc]
    rw [ih (fun x hx => h x (by simp [hx]))]

theorem sumVotesL_map_bumpC (cid : Int) (cand : Candidate) (l : List Candidate)
    (hnd : l.Pairwise (fun a b => a.id ≠ b.id)) (hmem : cand ∈ l) (hid : cand.id = cid)
    (sid : Int) :
    sumVotesL sid (l.map (bumpC cid)) =
      sumVotesL sid l + (if cand.survey_id = sid then 1 else 0) := by
  induction l with
  | nil => cases hmem
  | cons c cs ih =>
    rw [List.pairwise_cons] at hnd
    rcases List.mem_cons.mp hmem with hcc | hcs
    · subst hcc
      have hrest : cs.map (bumpC cid) = cs :=
        map_bumpC_eq_self cid cs (fun x hx => by
          have := hnd.1 x hx
          omega)
      simp only [List.map_cons, hrest, sumVotesL, bumpC, beq_iff_eq, if_pos hid,
        bumpC_survey_id]
      by_cases hs : cand.survey_id = sid <;> simp [hs] <;> omega
    · have hcne : c.id ≠ cid := by
        have := hnd.1 cand hcs
        omega
      simp only [List.map_cons, sumVotesL, bumpC, beq_iff_eq, if_neg hcne]
      rw [ih hnd.2 hcs]
      omega

theorem sumVotesL_filter_out (sid dropSid : Int) (l : List Candidate) :
    sumVotesL sid (l.filter (fun c => !(c.survey_id == dropSid))) =
      if sid = dropSid then 0 else sumVotesL sid l := by
  induction l with
  | nil => simp [sumVotesL]
  | cons c cs ih =>
    rcases eq_or_ne sid dropSid with hs | hs
    · subst hs
      by_cases hc : c.survey_id = sid <;>
        simp_all [sumVotesL, List.filter_cons, hc]
    · by_cases hc : c.survey_id = dropSid
      · have hcs : c.survey_id ≠ sid := by omega
        simp [sumVotesL, List.filter_cons, hc, ih, hs, hcs, Ne.symm hs]
      · simp [sumVotesL, List.filter_cons, hc, ih, hs]

theorem countP_filter_out (sid dropSid : Int) (l : List (Int × Int)) :
    (l.filter (fun p => !(p.1 == dropSid))).countP (fun p => p.1 == sid) =
      if sid = dropSid then 0 else l.countP (fun p => p.1 == sid) := by
  induction l with
  | nil => simp
  | cons p ps ih =>
    rcases eq_or_ne sid dropSid with hs | hs
    · subst hs
      by_cases hp : p.1 = sid <;>
        simp_all [List.filter_cons, List.countP_cons, hp]
    · by_cases hp : p.1 = dropSid <;>
      by_cases hps : p.1 = sid <;>
        simp_all [List.filter_cons, List.countP_cons, hp, hps]

theorem tallyInv_add_vote (st : DBState) (cid uid : Int) (cand : Candidate)
    (hnd : st.candidates.Pairwise (fun a b => a.id ≠ b.id))
    (hfind : st.candidates.find? (fun c => c.id == cid) = some cand)
    (hinv : tallyInv st) :
    tallyInv (add_vote st cand.survey_id cid uid) := by
  intro sid
  have hmem : cand ∈ st.candidates := List.mem_of_find?_eq_some hfind
  have hid : cand.id = cid := by
    have := List.find?_some hfind
    simpa [beq_iff_eq] using this
  simp only [add_vote, tallyInv, sumVotes, countVoted]
  rw [sumVotesL_map_bumpC cid cand st.candidates hnd hmem hid sid,
    List.countP_append]
  have := hinv sid
  simp only [sumVotes, countVoted] at this
  by_cases hs : cand.survey_id = sid <;>
    simp [List.countP_cons, hs, this] <;> omega

theorem stopStep_fst (st : DBState) (send : SendOk) (sid : Int) :
    (stopStep st send sid).1 =
      { st with surveys :=
          st.surveys.map (fun s => if s.id == sid then { s with active := false } else s) } := rfl

/-- One operation preserves well-formedness of candidate ids. -/
theorem wf_applyOp (st : DBState) (op : Op) (h : WF st) : WF (applyOp st op) := by
  obtain ⟨hnd, hlt⟩ := h
  cases op with
  | createSurvey short desc => exact ⟨hnd, hlt⟩
  | addCandidate sid name =>
    simp only [applyOp, addCandidateStep]
    split
    · constructor
      · rw [List.pairwise_append]
        refine ⟨hnd, by simp, ?_⟩
        intro a ha b hb
        simp only [List.mem_singleton] at hb
        subst hb
        have := hlt a ha
        simp only
        omega
      · intro c hc
        rcases List.mem_append.mp hc with h1 | h1
        · have := hlt c h1; simp only; omega
        · simp only [List.mem_singleton] at h1
          subst h1
          simp only
          omega
    · exact ⟨hnd, hlt⟩
  | addChannel sid ch =>
    simp only [applyOp, addChannelStep]
    split <;> exact ⟨hnd, hlt⟩
  | register uid =>
    simp only [applyOp, registerStep]
    split <;> exact ⟨hnd, hlt⟩
  | vote memb uid cid =>
    simp only [applyOp]
    rcases voteStep_fst_cases st memb uid cid with heq | ⟨cand, _, _, heq⟩
    · rw [heq]; exact ⟨hnd, hlt⟩
    · rw [heq]
      constructor
      · simp only [add_vote]
        rw [List.pairwise_map]
        refine hnd.imp ?_
        intro a b hab
        simpa [bumpC_id] using hab
      · intro c hc
        simp only [add_vote] at hc
        rcases List.mem_map.mp hc with ⟨d, hd, hdc⟩
        subst hdc
        simp only [add_vote]
        rw [bumpC_id]
        exact hlt d hd
  | recheck memb uid sid =>
    simp only [applyOp]
    rw [recheckStep_fst]
    exact ⟨hnd, hlt⟩
  | stop send sid =>
    simp only [applyOp]
    rw [stopStep_fst]
    exact ⟨hnd, hlt⟩
  | delete sid =>
    simp only [applyOp, deleteStep]
    cases hfind : st.surveys.find? (fun s => s.id == sid) with
    | none => exact ⟨hnd, hlt⟩
    | some s =>
      constructor
      · exact List.Pairwise.filter _ hnd
      · intro c hc
        exact hlt c (List.mem_of_mem_filter hc)

/-- One operation preserves tally correctness. -/
theorem tallyInv_applyOp (st : DBState) (op : Op) (hwf : WF st) (hinv : tallyInv st) :
    tallyInv (applyOp st op) := by
  obtain ⟨hnd, _⟩ := hwf
  cases op with
  | createSurvey short desc => exact hinv
  | addCandidate sid name =>
    intro s
    simp only [applyOp, addCandidateStep]
    split
    · simp only [sumVotes, countVoted, sumVotesL_append]
      have := hinv s
      simp only [sumVotes, countVoted] at this
      by_cases hs : sid = s <;> simp [sumVotesL, hs, this]
    · exact hinv s
  | addChannel sid ch =>
    intro s
    simp only [applyOp, addChannelStep]
    split <;> exact hinv s
  | register uid =>
    intro s
    simp only [applyOp, registerStep]
    split <;> exact hinv s
  | vote memb uid cid =>
    simp only [applyOp]
    rcases voteStep_fst_cases st memb uid cid with heq | ⟨cand, hfind, _, heq⟩
    · rw [heq]; exact hinv
    · rw [heq]
      exact tallyInv_add_vote st cid uid cand hnd hfind hinv
  | recheck memb uid sid =>
    simp only [applyOp]
    rw [recheckStep_fst]
    exact hinv
  | stop send sid =>
    intro s
    simp only [applyOp]
    rw [stopStep_fst]
    exact hinv s
  | delete sid =>
    intro s
    simp only [applyOp, deleteStep]
    cases hfind : st.surveys.find? (fun t => t.id == sid) with
    | none => exact hinv s
    | some sv =>
      simp only [sumVotes, countVoted]
      rw [sumVotesL_filter_out, countP_filter_out]
      have := hinv s
      simp only [sumVotes, countVoted] at this
      split <;> simp [this]

/-- A whole operation sequence preserves well-formedness and tally
correctness. -/
theorem tallyInv_runOps (st : DBState) (ops : List Op) (hwf : WF st) (hinv : tallyInv st) :
    WF (runOps st ops) ∧ tallyInv (runOps st ops) := by
  induction ops generalizing st with
  | nil => exact ⟨hwf, hinv⟩
  | cons op ops ih =>
    simp only [runOps, List.foldl_cons]
    exact ih (applyOp st op) (wf_applyOp st op hwf) (tallyInv_applyOp st op hwf hinv)

theorem deliverLoop_counts (send : SendOk) (l : List Int) :
    deliverLoop send l = (l.countP send, l.countP (fun u => !send u)) := by
  induction l with
  | nil => rfl
  | cons u us ih =>
    by_cases h : send u <;> simp [deliverLoop, ih, List.countP_cons, h]

theorem countP_not_total (p : α → Bool) (l : List α) :
    l.countP p + l.countP (fun a => !p a) = l.length := by
  induction l with
  | nil => rfl
  | cons a as ih =>
    by_cases h : p a <;> simp [List.countP_cons, h] <;> omega

/-! ### Concrete fixtures -/

/-- A membership lookup that errors on every call. -/
def membNone : Memb := fun _ _ => none

/-- A membership lookup that reports plain membership everywhere. -/
def membAll : Memb := fun _ _ => some .member

/-- A transport on which every send succeeds. -/
def sendAll : SendOk := fun _ => true

/-- Fixture survey. -/
def survey1 : Survey :=
  { id := 1, short_title := some "S1".toList, title := none,
    description := none, image := none, active := true }

/-- Fixture candidate A of survey 1. -/
def candA1 : Candidate := { id := 1, survey_id := 1, name := "A".toList, votes := 0 }

/-- Fixture candidate B of survey 1. -/
def candB2 : Candidate := { id := 2, survey_id := 1, name := "B".toList, votes := 0 }

/-- Survey 1 with two candidates, one required channel, and user 7 already
voted. -/
def stBase : DBState :=
  { nextSurveyId := 2, nextCandId := 3, surveys := [survey1],
    candidates := [candA1, candB2],
    reqChannels := [{ survey_id := 1, channel := "@req1".toList }],
    votedUsers := [(1, 7)], users := [7, 8] }

/-- The same fixture with no vote cast yet. -/
def stFree : DBState := { stBase with votedUsers := [] }

/-- Fixture survey 1 with its active flag cleared. -/
def inactiveSurvey : Survey := { survey1 with active := false }

/-- A state whose only survey is inactive, with one candidate and no
required channels. -/
def stInactive : DBState :=
  { nextSurveyId := 2, nextCandId := 2, surveys := [inactiveSurvey],
    candidates := [candA1], reqChannels := [], votedUsers := [], users := [] }

/-! ### Claims -/

/-- Claim C1: once a voted record exists for a survey and user, any
further vote attempt by that user on any candidate of the survey yields
the already-voted outcome and leaves the whole state — every candidate
tally and the voted-record set — unchanged; the uniqueness key is per
survey and user, not per candidate. -/
theorem already_voted_is_terminal (st : DBState) (memb : Memb) (uid cid : Int)
    (cand : Candidate)
    (hfind : st.candidates.find? (fun c => c.id == cid) = some cand)
    (hvoted : user_has_voted st cand.survey_id uid = true) :
    voteStep st memb uid cid = (st, .alreadyVoted) := by
  rw [voteStep_found st memb uid cid cand hfind, if_pos hvoted]

/-- Witness: user 7 has voted in survey 1; a later attempt on the other
candidate of the same survey is rejected with no state change. -/
theorem already_voted_is_terminal_witness :
    voteStep stBase membAll 7 2 = (stBase, .alreadyVoted) :=
  already_voted_is_terminal stBase membAll 7 2 candB2 (by decide) (by decide)

/-- Claim C2: from any well-formed state satisfying tally correctness,
after any sequence of operations the sum of a survey's candidate vote
counters equals the number of its voted records: each accepted vote
increments exactly one candidate's counter by exactly one and inserts
exactly one voted record in one transactional unit. -/
theorem tally_correct_after_any_ops (st : DBState) (ops : List Op)
    (hwf : WF st) (hinv : tallyInv st) :
    tallyInv (runOps st ops) :=
  (tallyInv_runOps st ops hwf hinv).2

/-- Witness: from the empty database, create a survey, add a candidate
and cast a vote; the invariant holds afterwards. -/
theorem tally_correct_after_any_ops_witness :
    tallyInv (runOps initState
      [Op.createSurvey "S".toList "D".toList, Op.addCandidate 1 "A".toList,
       Op.vote membAll 7 1]) :=
  tally_correct_after_any_ops initState
    [Op.createSurvey "S".toList "D".toList, Op.addCandidate 1 "A".toList,
     Op.vote membAll 7 1]
    ⟨List.Pairwise.nil, by simp [initState]⟩ (fun _ => rfl)

/-- Claim C3: a vote attempt by a user who has not voted, on a survey
with at least one unjoined required channel, yields the
membership-required outcome carrying exactly the set of all unjoined
channels — every required channel is checked, none is skipped after the
first failure — and the state is unchanged. -/
theorem membership_gate_complete (st : DBState) (memb : Memb) (uid cid : Int)
    (cand : Candidate)
    (hfind : st.candidates.find? (fun c => c.id == cid) = some cand)
    (hnv : user_has_voted st cand.survey_id uid = false)
    (hne : missingChannels st memb uid cand.survey_id ≠ []) :
    voteStep st memb uid cid =
      (st, .membershipRequired (missingChannels st memb uid cand.survey_id))
    ∧ ∀ ch, ch ∈ missingChannels st memb uid cand.survey_id ↔
        (ch ∈ (st.reqChannels.filter (fun r => r.survey_id == cand.survey_id)).map
            (fun r => r.channel)
         ∧ is_member memb uid ch = false) := by
  constructor
  · rw [voteStep_found st memb uid cid cand hfind, if_neg (by simp [hnv]),
      if_neg (by simpa [List.isEmpty_iff] using hne)]
  · intro ch
    rw [missingChannels, List.mem_filter, requiredChannelsOf, mem_sortLe]
    simp

/-- Witness: with a lookup that errors everywhere, user 7's attempt on
candidate 1 of survey 1 is rejected with the complete missing-channel
list and no state change. -/
theorem membership_gate_complete_witness :
    voteStep stFree membNone 7 1 = (stFree, .membershipRequired ["@req1".toList]) := by
  have h := (membership_gate_complete stFree membNone 7 1 candA1
    (by decide) (by decide) (by decide)).1
  rw [h]
  decide

/-- Claim C4, counterexample: in a state whose only survey is inactive,
a vote attempt on its candidate is accepted and changes the voted-record
set and the survey's tally sum — the vote path never consults the active
flag. -/
theorem inactive_survey_accepts_votes :
    stInactive.surveys.all (fun s => !s.active) = true
    ∧ (voteStep stInactive membAll 7 1).2 = .accepted
    ∧ (voteStep stInactive membAll 7 1).1.votedUsers ≠ stInactive.votedUsers
    ∧ sumVotes (voteStep stInactive membAll 7 1).1 1 ≠ sumVotes stInactive 1 := by
  exact ⟨by decide, by decide, by decide, by decide⟩

/-- Claim C4 as amended: a survey whose active flag is false is excluded
from the end-user listing; however the vote path reads only the
candidate, voted-record and required-channel tables, never the surveys
table, so a vote attempt on a candidate of an inactive survey proceeds
exactly as for an active one. -/
theorem inactive_excluded_from_listing_only (st : DBState) (l : List Survey)
    (memb : Memb) (uid cid : Int) :
    (∀ s ∈ st.surveys, s.active = false → s ∉ get_surveys st)
    ∧ (voteStep { st with surveys := l } memb uid cid).2 = (voteStep st memb uid cid).2
    ∧ (voteStep { st with surveys := l } memb uid cid).1 =
        { (voteStep st memb uid cid).1 with surveys := l } := by
  refine ⟨?_, ?_⟩
  · intro s _ hact hmem
    rw [get_surveys, mem_sortLe] at hmem
    have := (List.mem_filter.mp hmem).2
    rw [hact] at this
    cases this
  · have hc : ({ st with surveys := l } : DBState).candidates = st.candidates := rfl
    cases hfind : st.candidates.find? (fun c => c.id == cid) with
    | none =>
      constructor <;> simp [voteStep, hfind]
    | some cand =>
      rw [show (voteStep { st with surveys := l } memb uid cid) =
            voteStep ({ st with surveys := l } : DBState) memb uid cid from rfl]
      rw [voteStep_found ({ st with surveys := l } : DBState) memb uid cid cand
          (by rw [hc, hfind]),
        voteStep_found st memb uid cid cand hfind]
      by_cases hv : user_has_voted st cand.survey_id uid
      · have hv' : user_has_voted { st with surveys := l } cand.survey_id uid = true := hv
        constructor <;> simp [hv, hv']
      · have hv' : user_has_voted { st with surveys := l } cand.survey_id uid = false := by
          simpa using hv
        by_cases hm : (missingChannels st memb uid cand.survey_id).isEmpty
        · have hm' : (missingChannels { st with surveys := l } memb uid cand.survey_id).isEmpty
              = true := hm
          constructor <;> simp [hv, hv', hm, hm'] <;> rfl
        · have hm' : (missingChannels { st with surveys := l } memb uid cand.survey_id).isEmpty
              = false := by simpa using hm
          constructor <;> simp [hv, hv', hm, hm'] <;> rfl

/-- Witness: the inactive fixture survey is absent from the end-user
listing of its state. -/
theorem inactive_excluded_from_listing_only_witness :
    inactiveSurvey ∉ get_surveys stInactive :=
  (inactive_excluded_from_listing_only stInactive [] membAll 7 1).1
    inactiveSurvey (by decide) (by decide)

/-- Claim C5: the membership check returns true exactly when the channel
reference resolves, the external lookup succeeds, and the reported status
is member, administrator or creator (the owner status); every other
status and every lookup error yields false, and a user whose verification
fails on any one required channel cannot vote — the state is unchanged
and the outcome is not accepted — however the other channels fare. -/
theorem is_member_fail_closed (memb : Memb) (uid : Int) :
    (∀ ch, is_member memb uid ch = true ↔
      ∃ ref stat, resolveChatRef ch = some ref ∧ memb ref uid = some stat ∧
        statusAllowed stat = true)
    ∧ (∀ st cid cand chBad,
        st.candidates.find? (fun c => c.id == cid) = some cand →
        user_has_voted st cand.survey_id uid = false →
        chBad ∈ requiredChannelsOf st cand.survey_id →
        is_member memb uid chBad = false →
        (voteStep st memb uid cid).1 = st ∧ (voteStep st memb uid cid).2 ≠ .accepted) := by
  constructor
  · intro ch
    cases href : resolveChatRef ch with
    | none => simp [is_member, href]
    | some ref =>
      cases hmem : memb ref uid with
      | none => simp [is_member, href, hmem]
      | some stat =>
        simp only [is_member, href, hmem]
        constructor
        · intro h
          exact ⟨ref, stat, rfl, hmem, h⟩
        · rintro ⟨r, s, hr, hm, hs⟩
          cases hr
          rw [hmem] at hm
          cases hm
          exact hs
  · intro st cid cand chBad hfind hnv hch hbad
    have hmem : chBad ∈ missingChannels st memb uid cand.survey_id :=
      List.mem_filter.mpr ⟨hch, by simp [hbad]⟩
    have hne : ¬(missingChannels st memb uid cand.survey_id).isEmpty := by
      simp only [List.isEmpty_iff]
      exact List.ne_nil_of_mem hmem
    rw [voteStep_found st memb uid cid cand hfind, if_neg (by simp [hnv]), if_neg hne]
    exact ⟨rfl, by simp⟩

/-- Witness: with a lookup that errors on every channel, user 7 cannot
vote on candidate 1 and the state is untouched. -/
theorem is_member_fail_closed_witness :
    (voteStep stFree membNone 7 1).1 = stFree
    ∧ (voteStep stFree membNone 7 1).2 ≠ .accepted :=
  (is_member_fail_closed membNone 7).2 stFree 1 candA1 "@req1".toList
    (by decide) (by decide) (by decide) (by decide)

/-- Claim C6: the membership recheck is a pure function of the current
external membership state: any number of successive recheck taps with the
membership lookup unchanged produce the same outcome every time and leave
the database state — voted records and tallies included — exactly as it
was. -/
theorem recheck_pure_and_idempotent (st : DBState) (memb : Memb) (uid sid : Int) (n : Nat) :
    iterateRecheck memb uid sid n st =
      (List.replicate n (recheckStep st memb uid sid).2, st) := by
  induction n with
  | zero => rfl
  | succ k ih =>
    simp only [iterateRecheck, recheckStep_fst, ih, List.replicate_succ]

/-- Claim C7: channel-reference normalization: a `@handle` reference
normalizes to itself (any stripped reference without the join-URL marker
is returned unchanged); a join URL with no further path segment becomes
`@handle`; a URL with an internal path segment is unresolvable, so the
membership check returns false for every lookup; and a bare handle is
looked up with a leading `@` added. -/
theorem channel_normalization_spec :
    normalize_channel "@myChannel".toList = "@myChannel".toList
    ∧ normalize_channel "https://t.me/myChannel".toList = "@myChannel".toList
    ∧ (∀ memb uid, is_member memb uid "https://t.me/myChannel/123".toList = false)
    ∧ (∀ v, stripL v = v → startsWithL v "https://t.me/".toList = false →
        normalize_channel v = v)
    ∧ (∀ memb uid, is_member memb uid "myChannel".toList =
        (match memb (ChatRef.byName "@myChannel".toList) uid with
         | none => false
         | some stat => statusAllowed stat)) := by
  refine ⟨by decide, by decide, fun memb uid => rfl, ?_, fun memb uid => rfl⟩
  intro v hstrip hurl
  simp only [normalize_channel, hstrip, hurl, Bool.false_eq_true, if_false]
  split <;> rfl

/-- Witness: a stripped reference without the join-URL marker is returned
unchanged by normalization. -/
theorem channel_normalization_spec_witness :
    normalize_channel "@chan".toList = "@chan".toList :=
  channel_normalization_spec.2.2.2.1 "@chan".toList (by decide) (by decide)

/-- Claim C8: stopping a survey deactivates exactly that survey's rows,
touches no other table, snapshots the per-candidate tallies into the
result payload, and attempts one independent send per voter of that
survey — not per registered user — reporting how many sends succeeded and
how many failed, with the two counts covering every voter. -/
theorem stop_deactivates_and_notifies_voters (st : DBState) (send : SendOk) (sid : Int) :
    (stopStep st send sid).1 =
      { st with surveys :=
          st.surveys.map (fun s => if s.id == sid then { s with active := false } else s) }
    ∧ (∀ s ∈ (stopStep st send sid).1.surveys, s.id = sid → s.active = false)
    ∧ (stopStep st send sid).1.candidates = st.candidates
    ∧ (stopStep st send sid).1.votedUsers = st.votedUsers
    ∧ (stopStep st send sid).2.results = (candidatesOf st sid).map (fun c => (c.name, c.votes))
    ∧ (stopStep st send sid).2.sent = (votersOf st sid).countP send
    ∧ (stopStep st send sid).2.failed = (votersOf st sid).countP (fun u => !send u)
    ∧ (stopStep st send sid).2.sent + (stopStep st send sid).2.failed
        = (votersOf st sid).length
    ∧ (∀ l, (stopStep { st with users := l } send sid).2 = (stopStep st send sid).2) := by
  refine ⟨stopStep_fst st send sid, ?_, rfl, rfl, rfl, ?_, ?_, ?_, fun l => rfl⟩
  · intro s hmem hid
    rw [stopStep_fst] at hmem
    simp only at hmem
    rcases List.mem_map.mp hmem with ⟨t, _, hft⟩
    by_cases ht : t.id = sid
    · rw [if_pos (by simpa using ht)] at hft
      rw [hft.symm]
    · rw [if_neg (by simpa using ht)] at hft
      subst hft
      exact absurd hid ht
  · show (deliverLoop send (votersOf st sid)).1 = _
    rw [deliverLoop_counts]
  · show (deliverLoop send (votersOf st sid)).2 = _
    rw [deliverLoop_counts]
  · show (deliverLoop send (votersOf st sid)).1 + (deliverLoop send (votersOf st sid)).2 = _
    rw [deliverLoop_counts]
    exact countP_not_total send (votersOf st sid)

/-- Witness: after stopping survey 1 of the base fixture, its survey row
is inactive. -/
theorem stop_deactivates_and_notifies_voters_witness :
    inactiveSurvey.active = false :=
  (stop_deactivates_and_notifies_voters stBase sendAll 1).2.1
    inactiveSurvey (by decide) (by decide)

/-- Claim C9, counterexample: the vote handler on the token `vote_abc`
(non-numeric id) raises — modelled as the error result of the embedded
handler — instead of rejecting the token as a silent no-op, refuting the
claim that the callback handlers never raise on a non-numeric id. -/
theorem malformed_token_raises :
    voteHandler stBase membAll 7 "vote_abc".toList = .error () := rfl

/-- Claim C9 as amended: token parsing is unguarded — each of the
vote/open/recheck/stop/delete handlers raises (the error result) exactly
when stripping the verb marker leaves a non-numeric id, and dispatches
normally otherwise. -/
theorem handlers_raise_iff_malformed (st : DBState) (memb : Memb) (uid : Int)
    (send : SendOk) (data : Str) :
    (voteHandler st memb uid data = .error () ↔ parseId "vote_".toList data = none)
    ∧ (openHandler st data = .error () ↔ parseId "open_".toList data = none)
    ∧ (recheckHandler st memb uid data = .error () ↔ parseId "recheck_".toList data = none)
    ∧ (stopHandler st send data = .error () ↔ parseId "stop_".toList data = none)
    ∧ (deleteHandler st data = .error () ↔ parseId "delete_".toList data = none) := by
  have key : ∀ {α : Type} (f : Int → α) (verb : Str),
      ((match parseId verb data with
        | none => (Except.error () : Except Unit α)
        | some i => Except.ok (f i)) = Except.error () ↔ parseId verb data = none) := by
    intro α f verb
    cases h : parseId verb data <;> simp
  exact ⟨key (fun cid => voteStep st memb uid cid) "vote_".toList,
    key (fun sid => get_survey st sid) "open_".toList,
    key (fun sid => recheckStep st memb uid sid) "recheck_".toList,
    key (fun sid => stopStep st send sid) "stop_".toList,
    key (fun sid => deleteStep st sid) "delete_".toList⟩

/-- Claim C10: stopping a survey id with no survey row (and hence, by the
foreign keys, no candidate or voted rows) is not reported as not-found:
the deactivation update runs as a no-op and the handler proceeds,
reporting the placeholder title, an empty tally snapshot and zero sent
and failed deliveries, whereas deleting the same id is rejected as
not-found with no write. -/
theorem stop_skips_existence_check (st : DBState) (send : SendOk) (sid : Int)
    (hs : ∀ s ∈ st.surveys, s.id ≠ sid)
    (hc : ∀ c ∈ st.candidates, c.survey_id ≠ sid)
    (hv : ∀ p ∈ st.votedUsers, p.1 ≠ sid) :
    stopStep st send sid =
      (st, { title := "So'rovnoma".toList, results := [], sent := 0, failed := 0 })
    ∧ deleteStep st sid = (st, .notFound) := by
  have hsur : st.surveys.map (fun s => if s.id == sid then { s with active := false } else s)
      = st.surveys := by
    rw [show st.surveys.map (fun s => if s.id == sid then { s with active := false } else s)
          = st.surveys.map (fun s => s) from
        List.map_congr_left (fun s hmem => by simp [hs s hmem]), List.map_id']
  have hfind : st.surveys.find? (fun s => s.id == sid) = none := by
    rw [List.find?_eq_none]
    intro s hmem
    simp [hs s hmem]
  have hcand : st.candidates.filter (fun c => c.survey_id == sid) = [] := by
    rw [List.filter_eq_nil]
    intro c hmem
    simp [hc c hmem]
  have hvot : st.votedUsers.filter (fun p => p.1 == sid) = [] := by
    rw [List.filter_eq_nil]
    intro p hmem
    simp [hv p hmem]
  constructor
  · simp only [stopStep, hsur, hfind, candidatesOf, hcand, votersOf, hvot]
    simp [sortLe, deliverLoop, pyStrOr]
  · simp only [deleteStep, hfind]

/-- Witness: stopping the nonexistent survey 5 of the empty database
reports zero deliveries and the placeholder title, while deleting it is
rejected as not-found. -/
theorem stop_skips_existence_check_witness :
    stopStep initState sendAll 5 =
      (initState, { title := "So'rovnoma".toList, results := [], sent := 0, failed := 0 })
    ∧ deleteStep initState 5 = (initState, .notFound) :=
  stop_skips_existence_check initState sendAll 5 (by decide) (by decide) (by decide)

end SurveyBot
